import Mathlib

/-!
Verification of the CBS1 offer-importer field-extraction engine
(`import_offers.py`). The PDF-library collaborators (pdfplumber glyph
and image extraction, PIL raster rendering) are modelled by their data:
a glyph is a character with a bounding box, a checkbox image is a
bounding box, pixel coordinates and grayscale values come from an
abstract crop function, and per-checkbox mean brightness is abstracted
as a function on checkboxes. Floating-point page coordinates and money
amounts are modelled as rationals; all comparisons in the source are
order comparisons, which the rational model preserves. Python strings
are modelled as `List Char` / `String`.
-/

/-- Python whitespace class (`\s` over the ASCII range). -/
def pySpace (c : Char) : Bool :=
  c == ' ' || c == '\t' || c == '\n' || c == '\r' || c == '\x0b' || c == '\x0c'

/-- Python word-character class (`\w` over the ASCII range). -/
def pyWord (c : Char) : Bool :=
  c.isAlphanum || c == '_'

/-- Python `str.strip()` on a character list. -/
def pyStrip (l : List Char) : List Char :=
  ((l.dropWhile pySpace).reverse.dropWhile pySpace).reverse

/-- Python `str.find`: index of the first occurrence of `pat` in `l`. -/
def findSub (l pat : List Char) : Option Nat :=
  (List.range (l.length + 1)).find? (fun i => pat.isPrefixOf (l.drop i))

/-- Python `sub in s` substring test. -/
def containsSub (l pat : List Char) : Bool :=
  (findSub l pat).isSome

/-- String wrapper for the substring test. -/
def containsSubS (s pat : String) : Bool :=
  containsSub s.toList pat.toList

/-- Decimal digit run to a number. -/
def digitsToNat (l : List Char) : Nat :=
  l.foldl (fun a c => 10 * a + (c.toNat - 48)) 0

/-- A positioned text glyph (pdfplumber `char` record): one character
with its bounding box. -/
structure Glyph where
  text : Char
  x0 : ℚ
  y0 : ℚ
  x1 : ℚ
  y1 : ℚ
deriving DecidableEq, Repr

/-- A checkbox image record (pdfplumber `image` record): a bounding box. -/
structure Checkbox where
  x0 : ℚ
  y0 : ℚ
  x1 : ℚ
  y1 : ℚ
deriving DecidableEq, Repr

/-- `label_after_checkbox` glyph selection: glyphs to the right of the
checkbox (1-unit tolerance), strictly left of `next_cb_x`, vertically
centred within 4 units of the checkbox midline. -/
def labelGlyphsUnsorted (cb : Checkbox) (chars : List Glyph) (next_cb_x : ℚ) : List Glyph :=
  chars.filter (fun c =>
    decide (cb.x1 - 1 ≤ c.x0) && decide (c.x0 < next_cb_x) &&
    decide (|(c.y0 + c.y1) / 2 - (cb.y0 + cb.y1) / 2| < 4))

/-- Stable insertion by x-coordinate (models Python's stable `list.sort`
with key `x0`: an element is placed before the first strictly greater
key, so original order is kept among equal keys). -/
def insertByX (c : Glyph) : List Glyph → List Glyph
  | [] => [c]
  | d :: t => if d.x0 < c.x0 then d :: insertByX c t else c :: d :: t

/-- Stable sort by x-coordinate. -/
def sortByX : List Glyph → List Glyph
  | [] => []
  | c :: t => insertByX c (sortByX t)

/-- Sorted glyphs selected for a checkbox label. -/
def labelGlyphs (cb : Checkbox) (chars : List Glyph) (next_cb_x : ℚ) : List Glyph :=
  sortByX (labelGlyphsUnsorted cb chars next_cb_x)

/-- `label_after_checkbox`: text immediately to the right of a checkbox
(first 15 glyphs sorted by x, concatenated and stripped). -/
def label_after_checkbox (cb : Checkbox) (chars : List Glyph) (next_cb_x : ℚ) : String :=
  String.mk (pyStrip (((labelGlyphs cb chars next_cb_x).take 15).map Glyph.text))

/-- `label.upper().lstrip()` from `label_to_dropdown`. -/
def upperLstrip (label : String) : List Char :=
  (label.toList.map Char.toUpper).dropWhile pySpace

/-- `label_to_dropdown`: map raw checkbox label text to a spreadsheet
dropdown value (`None` for an unknown label). -/
def label_to_dropdown (label : String) : Option String :=
  let u := upperLstrip label
  if "BUYER".toList.isPrefixOf u then some "Buyer Pays"
  else if "SELLER".toList.isPrefixOf u then some "Seller Pays"
  else if containsSub u "ONE-HALF".toList || "ONE".toList.isPrefixOf u then some "Split 50/50"
  else if "N/A".toList.isPrefixOf u then some "n/a"
  else none

/-- Normalized section-id target from `find_section_anchor_y`:
`section_id.replace('.', '').replace(' ', '')`. -/
def normTarget (section_id : String) : List Char :=
  section_id.toList.filter (fun c => c != '.' && c != ' ')

/-- The up-to-10-glyph fragment at index `i`, spaces and periods removed. -/
def fragAt (chars : List Glyph) (i : Nat) : List Char :=
  (((chars.drop i).take 10).map Glyph.text).filter (fun c => c != ' ' && c != '.')

/-- The up to 4 glyphs preceding index `i` (`chars[max(0, i-4):i]`). -/
def prevAt (chars : List Glyph) (i : Nat) : List Glyph :=
  (chars.take i).drop (i - 4)

/-- Acceptance test of `find_section_anchor_y` at glyph index `i`:
digit glyph, at the left margin (the code skips only `x0 > 150`), the
following fragment starts with the first four characters of the
normalized target, and no `§` among the 4 preceding glyphs. -/
def anchorAccept (target : List Char) (chars : List Glyph) (i : Nat) : Bool :=
  match chars[i]? with
  | none => false
  | some c =>
    c.text.isDigit && decide (c.x0 ≤ 150) &&
    (target.take 4).isPrefixOf (fragAt chars i) &&
    !((prevAt chars i).any (fun g => g.text == '§'))

/-- `find_section_anchor_y`: y-coordinate of the first accepted
candidate glyph, scanning in glyph order. -/
def find_section_anchor_y (section_id : String) (chars : List Glyph) : Option ℚ :=
  ((List.range chars.length).find? (anchorAccept (normTarget section_id) chars)).bind
    (fun i => chars[i]?.map Glyph.y0)

/-- One step of Python `min(list, key=f)`: a later element replaces the
current best only when its key is strictly smaller. -/
def pyMinStep (f : Checkbox → ℚ) (acc : Option Checkbox) (x : Checkbox) : Option Checkbox :=
  match acc with
  | none => some x
  | some b => if f x < f b then some x else some b

/-- Python `min(list, key=f)` as an option: the first element attaining
the least key. -/
def pyMinBy (f : Checkbox → ℚ) (l : List Checkbox) : Option Checkbox :=
  l.foldl (pyMinStep f) none

/-- Python `min(l, default=d)` over rationals. -/
def pyMinD (l : List ℚ) (d : ℚ) : ℚ :=
  match l with
  | [] => d
  | x :: xs => xs.foldl min x

/-- Candidate checkboxes of `detect_checked_box_at_y`: boxes on the
options line (tolerance 8) plus boxes one line above (`options_y + 14`,
tolerance 6) not already collected. -/
def detectCandidates (options_y : ℚ) (all_checkboxes : List Checkbox) : List Checkbox :=
  let first := all_checkboxes.filter (fun cb => decide (|cb.y0 - options_y| < 8))
  first ++ all_checkboxes.filter (fun cb =>
    decide (|cb.y0 - (options_y + 14)| < 6) && !(decide (cb ∈ first)))

/-- Value produced from the winning (darkest) checkbox: bound the label
at the next checkbox on the same visual row, resolve the label, map it
to a dropdown value, defaulting to `"n/a"`. (The source's
`value if value else "n/a"` tests Python falsiness; `label_to_dropdown`
only ever returns `None` or a non-empty literal, so this is exactly the
`None` default.) -/
def winnerValue (best : Checkbox) (cands : List Checkbox) (chars : List Glyph) : String :=
  let same_y := cands.filter (fun cb => decide (|cb.y0 - best.y0| < 3))
  let next_x := pyMinD ((same_y.filter (fun cb => decide (best.x1 < cb.x0))).map Checkbox.x0) 9999
  (label_to_dropdown (label_after_checkbox best chars next_x)).getD "n/a"

/-- `detect_checked_box_at_y`: select the darkest candidate checkbox;
if none exists or its mean brightness exceeds 150, the result is
`"n/a"`, otherwise the dropdown value of its label. Brightness is
abstracted as the per-checkbox mean-brightness function `br` induced by
the page raster. -/
def detect_checked_box_at_y (options_y : ℚ) (all_checkboxes : List Checkbox)
    (br : Checkbox → ℚ) (chars : List Glyph) : String :=
  let cands := detectCandidates options_y all_checkboxes
  match pyMinBy br cands with
  | none => "n/a"
  | some best => if br best > 150 then "n/a" else winnerValue best cands chars

/-- Python `\w` or a period (the `[\w\.]` class of the deadline row
reference token). -/
def pyWordDot (c : Char) : Bool :=
  pyWord c || c == '.'

/-- The anchored head pattern of `parse_deadline_line`,
`^(\d+)\s+(?:§\s*[\w\.]+|n/a)\s+`: leading item number, whitespace, a
section-reference token or the literal `n/a`, trailing whitespace.
Returns the item number and the remainder of the line after the match.
Adjacent character classes of the pattern are disjoint, so the greedy
match is deterministic. -/
def deadlineHead (l : List Char) : Option (Nat × List Char) :=
  let (ds, r1) := l.span Char.isDigit
  if ds.isEmpty then none else
  let (w1, r2) := r1.span pySpace
  if w1.isEmpty then none else
  let item := digitsToNat ds
  match r2 with
  | '§' :: r3 =>
    let r4 := r3.dropWhile pySpace
    let (wd, r5) := r4.span pyWordDot
    if wd.isEmpty then none else
    let (w2, r6) := r5.span pySpace
    if w2.isEmpty then none else some (item, r6)
  | 'n' :: '/' :: 'a' :: r3 =>
    let (w2, r4) := r3.span pySpace
    if w2.isEmpty then none else some (item, r4)
  | _ => none

/-- End positions of whole-word occurrences of `kw` in `rest`
(`re.finditer(r"\b" + kw + r"\b", rest)`, each occurrence's `end()`). -/
def wordOccEnds (kw : List Char) (rest : List Char) : List Nat :=
  (List.range (rest.length + 1)).filterMap (fun i =>
    if kw.isPrefixOf (rest.drop i) &&
       (decide (i = 0) || !pyWord (rest.getD (i - 1) ' ')) &&
       (decide (rest.length ≤ i + kw.length) || !pyWord (rest.getD (i + kw.length) ' '))
    then some (i + kw.length) else none)

/-- All keyword split points of a deadline row remainder: ends of
whole-word occurrences of `Deadline`, `Date` and `Time`. -/
def splitPoints (rest : List Char) : List Nat :=
  wordOccEnds "Deadline".toList rest ++ wordOccEnds "Date".toList rest ++
    wordOccEnds "Time".toList rest

/-- `max(split_points)` (the list is used only when non-empty). -/
def maxNatList (l : List Nat) : Nat :=
  l.foldl max 0

/-- `re.sub(r"^\([^)]+\)\s*", "", value)`: strip one leading
parenthesized qualifier (non-empty, up to the first closing paren) and
following whitespace. -/
def stripLeadingParen (l : List Char) : List Char :=
  match l with
  | '(' :: t =>
    let (mid, r) := t.span (fun c => c != ')')
    match r with
    | ')' :: r2 => if mid.isEmpty then l else r2.dropWhile pySpace
    | _ => l
  | _ => l

/-- Day-of-week names, lowercase. -/
def dayNames : List (List Char) :=
  ["monday".toList, "tuesday".toList, "wednesday".toList, "thursday".toList,
   "friday".toList, "saturday".toList, "sunday".toList]

/-- `re.sub(r"\s+(Monday|...|Sunday)$", "", value, flags=IGNORECASE)`:
remove a trailing day-of-week name and the whitespace run before it;
the name must be at the very end and preceded by whitespace. -/
def stripTrailingDay (l : List Char) : List Char :=
  match dayNames.find? (fun d => d.isSuffixOf (l.map Char.toLower)) with
  | none => l
  | some d =>
    let core := l.take (l.length - d.length)
    match core.reverse with
    | c :: _ => if pySpace c then (core.reverse.dropWhile pySpace).reverse else l
    | [] => l

/-- Value normalization of `parse_deadline_line` applied to the line
remainder after the head pattern: take the text after the last keyword
split point (stripping a leading parenthetical) or the whole remainder
when no keyword occurs, strip a trailing day-of-week name, and
normalize empty or `N/A` to `n/a`. -/
def deadlineValue (rest : List Char) : List Char :=
  let sp := splitPoints rest
  let v :=
    if sp.isEmpty then pyStrip rest
    else pyStrip (stripLeadingParen (pyStrip (rest.drop (maxNatList sp))))
  let v := pyStrip (stripTrailingDay v)
  if v.isEmpty || (v.map Char.toUpper) == "N/A".toList then "n/a".toList else v

/-- `parse_deadline_line`: parse one row of the §3.1 deadline table into
an item number and value; rows with no head match or item number above
43 are rejected. -/
def parse_deadline_line (line : List Char) : Option (Nat × String) :=
  match deadlineHead line with
  | none => none
  | some (item, rest) =>
    if 43 < item then none
    else some (item, String.mk (deadlineValue rest))

/-- Python dict assignment `d[k] = v` on an insertion-ordered
association list: overwrite in place if present, else append. -/
def pyDictSet (d : List (Nat × String)) (k : Nat) (v : String) : List (Nat × String) :=
  if d.any (fun p => p.1 == k) then
    d.map (fun p => if p.1 == k then (k, v) else p)
  else d ++ [(k, v)]

/-- Python `d.get(k, dflt)`. -/
def pyDictGet (d : List (Nat × String)) (k : Nat) (dflt : String) : String :=
  match d.find? (fun p => p.1 == k) with
  | some p => p.2
  | none => dflt

/-- The deadline table header marker. -/
def deadlineHeaderLit : List Char := "Item No. Reference Event Date or Deadline".toList

/-- The marker ending the deadline table. -/
def deadlineEndLit : List Char := "4. PURCHASE PRICE AND TERMS".toList

/-- `parse_deadlines`: locate the deadline table between the fixed
header phrase and the next-section marker (or a 3000-character window),
split it into lines, and collect the parsed rows into a dictionary. -/
def parse_deadlines (text : String) : List (Nat × String) :=
  let l := text.toList
  match findSub l deadlineHeaderLit with
  | none => []
  | some start =>
    let tail := l.drop start
    let table :=
      match findSub tail deadlineEndLit with
      | some r => tail.take r
      | none => tail.take 3000
    (table.splitOn '\n').foldl (fun acc line =>
      match parse_deadline_line (pyStrip line) with
      | some (item, v) => pyDictSet acc item v
      | none => acc) []

/-- The capture `([\d,]+\.\d{2})` of the money patterns, matched at the
current position: a non-empty greedy run of digits and commas, a
period, two digits. The classes are disjoint, so no backtracking can
succeed where the greedy match fails. -/
def moneyCapture (cs : List Char) : Option (List Char) :=
  let (run, r) := cs.span (fun c => c.isDigit || c == ',')
  if run.isEmpty then none else
  match r with
  | '.' :: a :: b :: _ => if a.isDigit && b.isDigit then some (run ++ ['.', a, b]) else none
  | _ => none

/-- Backtracking over the split between `[^\d]+` and the capture: try
the longest non-digit prefix first (PCRE greedy preference), giving
back trailing characters one at a time. -/
def moneyTailTry (cs : List Char) : Nat → Option (List Char)
  | 0 => none
  | k + 1 =>
    match moneyCapture (cs.drop (k + 1)) with
    | some cap => some cap
    | none => moneyTailTry cs k

/-- The tail `[^\d]+([\d,]+\.\d{2})` of the money patterns, matched at
the current position; returns the captured group. -/
def moneyTailAt (cs : List Char) : Option (List Char) :=
  let m := (cs.span (fun c => !c.isDigit)).1.length
  if m = 0 then none else moneyTailTry cs m

/-- The head `§\s*SEC\s+LABEL` of a money pattern matched at the
current position (`SEC` is the literal section number such as `4.1.`,
`LABEL` the literal label such as `Purchase Price`); returns the
remainder. Adjacent classes are disjoint, so the match is
deterministic. -/
def secLabelAt (sec lab : List Char) (cs : List Char) : Option (List Char) :=
  match cs with
  | '§' :: r1 =>
    let r2 := r1.dropWhile pySpace
    if sec.isPrefixOf r2 then
      let r3 := r2.drop sec.length
      let (w, r4) := r3.span pySpace
      if w.isEmpty then none
      else if lab.isPrefixOf r4 then some (r4.drop lab.length) else none
    else none
  | _ => none

/-- `re.search` of a full money pattern
`§\s*SEC\s+LABEL[^\d]+([\d,]+\.\d{2})` over a window: first match
position wins; returns the captured group. -/
def searchMoney (sec lab : List Char) (w : List Char) : Option (List Char) :=
  (List.range (w.length + 1)).findSome? (fun i =>
    (secLabelAt sec lab (w.drop i)).bind moneyTailAt)

/-- `float(cap.replace(",", ""))` for a captured money group: remove
commas and read `digits.digits` as an exact decimal. -/
def moneyToRat (cap : List Char) : ℚ :=
  let ds := cap.filter (fun c => c != ',')
  let ip := ds.takeWhile (fun c => c != '.')
  let fp := (ds.dropWhile (fun c => c != '.')).drop 1
  (digitsToNat ip : ℚ) + (digitsToNat fp : ℚ) / ((10 : ℚ) ^ fp.length)

/-- `parse_price`: the purchase-price amount found by the money pattern
for section `4.1.` with label `Purchase Price`, inside the
600-character window after the first occurrence of `4.1.`. -/
def parse_price (text : String) : Option ℚ :=
  let l := text.toList
  match findSub l "4.1.".toList with
  | none => none
  | some idx =>
    (searchMoney "4.1.".toList "Purchase Price".toList ((l.drop idx).take 600)).map moneyToRat

/-- `parse_earnest`: the earnest-money amount, section `4.3.`, label
`Earnest Money`, in the same `4.1.`-anchored window. -/
def parse_earnest (text : String) : Option ℚ :=
  let l := text.toList
  match findSub l "4.1.".toList with
  | none => none
  | some idx =>
    (searchMoney "4.3.".toList "Earnest Money".toList ((l.drop idx).take 600)).map moneyToRat

/-- `parse_new_loan`: the loan amount, section `4.5.`, label `New
Loan`; `None` when the `4.1.` anchor is absent, `0` when the pattern
does not match or the parsed amount is not positive. -/
def parse_new_loan (text : String) : Option ℚ :=
  let l := text.toList
  match findSub l "4.1.".toList with
  | none => none
  | some idx =>
    match searchMoney "4.5.".toList "New Loan".toList ((l.drop idx).take 600) with
    | some cap => some (if 0 < moneyToRat cap then moneyToRat cap else 0)
    | none => some 0

/-- Python falsiness of the loan amount
(`not loan_amount or loan_amount == 0`): `None` or zero. -/
def loanFalsy (loan_amount : Option ℚ) : Bool :=
  match loan_amount with
  | none => true
  | some v => decide (v = 0)

/-- `parse_loan_type`: `Cash` when section 4.5 is marked omitted or the
loan amount is falsy; otherwise `FHA`/`VA` by phrase detection, with
`Conventional` as the default. -/
def parse_loan_type (text : String) (loan_amount : Option ℚ) : String :=
  if containsSubS text "4.5. New Loan. (Omitted" then "Cash"
  else if loanFalsy loan_amount then "Cash"
  else if containsSubS text "FHA Insured" || containsSubS text "FHA insured" then "FHA"
  else if containsSubS text "VA Guaranteed" || containsSubS text "VA guaranteed" then "VA"
  else "Conventional"

/-- A value stored in the output field record: a string, a number, or
Python's `None`. -/
inductive FieldValue where
  | str (s : String)
  | num (q : ℚ)
  | pyNone
deriving DecidableEq, Repr

/-- An optional amount as a dict value (`None` when absent). -/
def optNum (q : Option ℚ) : FieldValue :=
  match q with
  | some v => FieldValue.num v
  | none => FieldValue.pyNone

/-- Dict assignment on the finite-map view of the record. -/
def dset (d : Nat → Option FieldValue) (k : Nat) (v : FieldValue) : Nat → Option FieldValue :=
  fun r => if r = k then some v else d r

/-- The section 3.1 deadline-table mapping from item number to
spreadsheet row, in source order. -/
def DEADLINE_ITEM_TO_ROW : List (Nat × Nat) :=
  [(1, 49), (2, 50), (3, 51), (4, 52), (5, 53), (6, 54), (7, 55),
   (8, 56), (9, 57), (10, 58), (11, 59), (12, 60), (13, 61), (14, 62),
   (15, 63), (22, 64), (23, 65), (24, 66), (25, 67), (26, 68), (27, 69),
   (30, 70), (31, 71), (32, 72), (33, 73), (34, 74), (35, 75), (36, 76),
   (37, 77), (38, 78), (39, 79), (40, 80), (41, 81), (42, 82), (43, 83)]

/-- Rows the script never overwrites (formulas / always-manual). -/
def SKIP_ROWS : List Nat :=
  [8, 9, 10, 13, 14, 20, 22, 24, 26, 28, 30, 32, 34, 36, 38, 40, 42, 44, 45, 46, 87, 89]

/-- Outputs of the extractors of `parse_contract` that read the PDF
object (page layout and raster) or text sections no claim depends on:
agent line, buyer/concession/commission/inclusions/exclusions/
additional-provisions text extractors and the checkbox-driven fee
detectors. They are abstracted by their values, with the types the
source functions return. -/
structure PdfInputs where
  buyer : String
  agent : String
  concession : ℚ
  commission : Option ℚ
  inclusions : String
  exclusions : String
  addProv : String
  titleIns : String
  oec : String
  feeClosing : String
  feeRecord : String
  feeReserves : String
  feeOther : String
  feeLocal : String
  feeSales : String
  feePrivate : String
  feeWater : String
  feeUtility : String
  feeAssoc : String
deriving Repr

/-- `parse_contract` record assembly (`data` construction, fee-section
merge, conditional commission, deadline defaulting), as a finite map
from row number to value. The loan trio, price, earnest and deadlines
are computed from the document text by the embedded extractors; the
remaining extractor outputs are the fields of `inp`. -/
def parse_contract_data (text : String) (inp : PdfInputs) : Nat → Option FieldValue :=
  let deadlines := parse_deadlines text
  let loan_amount := parse_new_loan text
  let loan_type := parse_loan_type text loan_amount
  let is_cash := loan_type == "Cash"
  let d : Nat → Option FieldValue := fun _ => none
  let d := dset d 3 (.str inp.buyer)
  let d := dset d 4 (.str inp.agent)
  let d := dset d 6 (optNum (parse_price text))
  let d := dset d 7 (.num inp.concession)
  let d := dset d 11 (optNum (parse_earnest text))
  let d := dset d 12 (optNum loan_amount)
  let d := dset d 15 (.str loan_type)
  let d := dset d 16 (if is_cash then .str "n/a" else .pyNone)
  let d := dset d 17 (if is_cash then .str "n/a" else .pyNone)
  let d := dset d 19 (.str inp.titleIns)
  let d := dset d 21 (.str inp.oec)
  let d := dset d 47 (.str "n/a")
  let d := dset d 85 (.str inp.inclusions)
  let d := dset d 86 (.str inp.exclusions)
  let d := dset d 88 (.str inp.addProv)
  let d := dset d 23 (.str inp.feeClosing)
  let d := dset d 25 (.str inp.feeRecord)
  let d := dset d 27 (.str inp.feeReserves)
  let d := dset d 29 (.str inp.feeOther)
  let d := dset d 31 (.str inp.feeLocal)
  let d := dset d 33 (.str inp.feeSales)
  let d := dset d 35 (.str inp.feePrivate)
  let d := dset d 37 (.str inp.feeWater)
  let d := dset d 39 (.str inp.feeUtility)
  let d := dset d 41 (.str inp.feeAssoc)
  let d := match inp.commission with
    | some c => dset d 43 (.num c)
    | none => d
  DEADLINE_ITEM_TO_ROW.foldl
    (fun acc p => dset acc p.2 (.str (pyDictGet deadlines p.1 "n/a"))) d

/-- Python `int()` truncation toward zero on a rational. -/
def pyInt (q : ℚ) : ℤ :=
  if 0 ≤ q then ⌊q⌋ else -⌊-q⌋

/-- `checkbox_brightness`: mean grayscale value of the raster crop of a
checkbox bounding box. The PIL raster is abstracted by `getPixels`, the
grayscale pixel list of the crop box `(ix, iy, ix+iw, iy+ih)`; the
result is 255 when that list is empty, else the mean. -/
def checkbox_brightness (page_height : ℚ) (cb : Checkbox) (scale_x scale_y : ℚ)
    (getPixels : ℤ → ℤ → ℤ → ℤ → List ℕ) : ℚ :=
  let ix := pyInt (cb.x0 * scale_x)
  let iy := pyInt ((page_height - cb.y1) * scale_y)
  let iw := max 1 (pyInt ((cb.x1 - cb.x0) * scale_x))
  let ih := max 1 (pyInt ((cb.y1 - cb.y0) * scale_y))
  let pixels := getPixels ix iy iw ih
  if pixels.isEmpty then 255 else (pixels.sum : ℚ) / pixels.length

/-- The numeric group `\d{1,3}(,\d{3})*\.\d{2}` that the specification
text states for the money extractors (the source instead uses
`[\d,]+\.\d{2}`); written to compare the two patterns. Splits of the
`(,\d{3})*` star in PCRE preference order (greedy first). -/
def starTriples (cs : List Char) : List (List Char × List Char) :=
  match cs with
  | ',' :: a :: b :: c :: r =>
    if a.isDigit && b.isDigit && c.isDigit then
      ((starTriples r).map (fun p => (',' :: a :: b :: c :: p.1, p.2))) ++ [([], cs)]
    else [([], cs)]
  | _ => [([], cs)]

/-- The capture `(\d{1,3}(,\d{3})*\.\d{2})` of the specification's
stated pattern, matched at the current position with PCRE backtracking
(leading digit count greedy from 3 down, then star groups greedy). -/
def specCapAt (cs : List Char) : Option (List Char) :=
  (List.range 3).findSome? (fun d =>
    let k := 3 - d
    let pre := cs.take k
    if pre.length = k && pre.all Char.isDigit then
      (starTriples (cs.drop k)).findSome? (fun p =>
        match p.2 with
        | '.' :: a :: b :: _ =>
          if a.isDigit && b.isDigit then some (pre ++ p.1 ++ ['.', a, b]) else none
        | _ => none)
    else none)

/-- Backtracking over the split between `[^\d]+` and the
specification's capture, longest non-digit prefix first. -/
def specTailTry (cs : List Char) : Nat → Option (List Char)
  | 0 => none
  | k + 1 =>
    match specCapAt (cs.drop (k + 1)) with
    | some cap => some cap
    | none => specTailTry cs k

/-- The tail `[^\d]+(\d{1,3}(,\d{3})*\.\d{2})` of the specification's
stated purchase-price pattern. -/
def specTailAt (cs : List Char) : Option (List Char) :=
  let m := (cs.span (fun c => !c.isDigit)).1.length
  if m = 0 then none else specTailTry cs m

/-- The purchase-price extractor as the specification words it: same
anchor, window and label, but with the numeric group
`\d{1,3}(,\d{3})*\.\d{2}` instead of the source's `[\d,]+\.\d{2}`. -/
def parse_price_specPattern (text : String) : Option ℚ :=
  let l := text.toList
  match findSub l "4.1.".toList with
  | none => none
  | some idx =>
    ((List.range 601).findSome? (fun i =>
      (secLabelAt "4.1.".toList "Purchase Price".toList (((l.drop idx).take 600).drop i)).bind
        specTailAt)).map moneyToRat

/-- Scalar rows of the assembled record that are set unconditionally
(every `data` key of `parse_contract` other than the commission row 43
and the deadline rows 49–83). -/
def scalarRows : List Nat :=
  [3, 4, 6, 7, 11, 12, 15, 16, 17, 19, 21, 23, 25, 27, 29, 31, 33, 35, 37, 39, 41, 47, 85, 86, 88]

/-- Example page glyphs: a `§ 16.2.` cross-reference (y = 500) above a
true `16.2 A…` section header (y = 400), both flush left. -/
def g16ex : List Glyph :=
  [⟨'§', 10, 500, 14, 510⟩, ⟨'1', 15, 500, 19, 510⟩, ⟨'6', 19, 500, 23, 510⟩,
   ⟨'.', 23, 500, 27, 510⟩, ⟨'2', 27, 500, 31, 510⟩, ⟨'.', 31, 500, 35, 510⟩,
   ⟨'1', 20, 400, 24, 410⟩, ⟨'6', 24, 400, 28, 410⟩, ⟨'.', 28, 400, 32, 410⟩,
   ⟨'2', 32, 400, 36, 410⟩, ⟨' ', 36, 400, 40, 410⟩, ⟨'A', 40, 400, 44, 410⟩]

/-- Example checkbox with an adjacent `Buyer` label. -/
def cbBex : Checkbox := ⟨100, 0, 110, 10⟩

/-- Glyphs of the label `Buyer` to the right of `cbBex`. -/
def glBex : List Glyph :=
  [⟨'B', 111, 1, 115, 9⟩, ⟨'u', 115, 1, 119, 9⟩, ⟨'y', 119, 1, 123, 9⟩,
   ⟨'e', 123, 1, 127, 9⟩, ⟨'r', 127, 1, 131, 9⟩]

/-- Example brightness function: every checkbox reads 100 (dark). -/
def brEx : Checkbox → ℚ := fun _ => 100

/-- Example checkbox followed, 40 units further right (x0 = 50… next
box at x0 = 60), by a second checkbox; labels `Buyer Pays` and
`Seller Pays`. -/
def cb1ex : Checkbox := ⟨10, 0, 20, 10⟩

/-- Glyphs of `Buyer Pays` after `cb1ex` and `Seller` after the next
checkbox (left edge 60). -/
def glBSex : List Glyph :=
  [⟨'B', 21, 0, 24, 10⟩, ⟨'u', 24, 0, 27, 10⟩, ⟨'y', 27, 0, 30, 10⟩, ⟨'e', 30, 0, 33, 10⟩,
   ⟨'r', 33, 0, 36, 10⟩, ⟨' ', 36, 0, 38, 10⟩, ⟨'P', 38, 0, 41, 10⟩, ⟨'a', 41, 0, 44, 10⟩,
   ⟨'y', 44, 0, 47, 10⟩, ⟨'s', 47, 0, 50, 10⟩,
   ⟨'S', 61, 0, 64, 10⟩, ⟨'e', 64, 0, 67, 10⟩, ⟨'l', 67, 0, 70, 10⟩, ⟨'l', 70, 0, 73, 10⟩,
   ⟨'e', 73, 0, 76, 10⟩, ⟨'r', 76, 0, 79, 10⟩]

/-- Crop function returning no pixels (an empty crop). -/
def gpEmpty : ℤ → ℤ → ℤ → ℤ → List ℕ := fun _ _ _ _ => []

/-- Example extractor outputs with no commission value. -/
def inpNoCommission : PdfInputs :=
  ⟨"", "", 0, none, "", "", "", "", "", "", "", "", "", "", "", "", "", "", ""⟩

/-- Example document text containing the deadline-table header and the
specification's example row. -/
def tDeadlineEx : String :=
  "Item No. Reference Event Date or Deadline\n5 § 4.5. Loan Application Deadline March 3, 2025 Monday"

lemma mem_insertByX {a c : Glyph} {l : List Glyph} :
    a ∈ insertByX c l ↔ a = c ∨ a ∈ l := by
  induction l with
  | nil => simp [insertByX]
  | cons d t ih =>
    simp only [insertByX]
    split
    · simp only [List.mem_cons, ih]
      tauto
    · simp only [List.mem_cons]

lemma mem_sortByX {a : Glyph} {l : List Glyph} :
    a ∈ sortByX l ↔ a ∈ l := by
  induction l with
  | nil => simp [sortByX]
  | cons c t ih =>
    simp only [sortByX, mem_insertByX, ih, List.mem_cons]

lemma pyMinBy_go (f : Checkbox → ℚ) :
    ∀ (l : List Checkbox) (b : Checkbox),
      ∃ m, l.foldl (pyMinStep f) (some b) = some m ∧ (m = b ∨ m ∈ l) ∧
        f m ≤ f b ∧ ∀ x ∈ l, f m ≤ f x := by
  intro l
  induction l with
  | nil => exact fun b => ⟨b, rfl, Or.inl rfl, le_refl _, by simp⟩
  | cons x xs ih =>
    intro b
    rw [List.foldl_cons]
    by_cases hx : f x < f b
    · have hs : pyMinStep f (some b) x = some x := by simp [pyMinStep, hx]
      rw [hs]
      obtain ⟨m, hm, hmem, hle, hall⟩ := ih x
      refine ⟨m, hm, ?_, ?_, ?_⟩
      · rcases hmem with rfl | h
        · exact Or.inr (List.mem_cons_self _ _)
        · exact Or.inr (List.mem_cons_of_mem _ h)
      · exact hle.trans hx.le
      · intro y hy
        rcases List.mem_cons.mp hy with rfl | hy
        · exact hle
        · exact hall y hy
    · have hs : pyMinStep f (some b) x = some b := by simp [pyMinStep, hx]
      rw [hs]
      obtain ⟨m, hm, hmem, hle, hall⟩ := ih b
      refine ⟨m, hm, ?_, hle, ?_⟩
      · rcases hmem with rfl | h
        · exact Or.inl rfl
        · exact Or.inr (List.mem_cons_of_mem _ h)
      · intro y hy
        rcases List.mem_cons.mp hy with rfl | hy
        · exact hle.trans (not_lt.mp hx)
        · exact hall y hy

lemma pyMinBy_eq_some {f : Checkbox → ℚ} {l : List Checkbox} {best : Checkbox}
    (h : pyMinBy f l = some best) : best ∈ l ∧ ∀ x ∈ l, f best ≤ f x := by
  cases l with
  | nil => simp [pyMinBy] at h
  | cons x xs =>
    have hrw : pyMinBy f (x :: xs) = xs.foldl (pyMinStep f) (some x) := by
      simp [pyMinBy, List.foldl_cons, pyMinStep]
    rw [hrw] at h
    obtain ⟨m, hm, hmem, hle, hall⟩ := pyMinBy_go f xs x
    rw [hm] at h
    injection h with h
    subst h
    constructor
    · rcases hmem with rfl | hmem
      · exact List.mem_cons_self _ _
      · exact List.mem_cons_of_mem _ hmem
    · intro y hy
      rcases List.mem_cons.mp hy with rfl | hy
      · exact hle
      · exact hall y hy

lemma pyMinBy_isSome {f : Checkbox → ℚ} {l : List Checkbox} (h : l ≠ []) :
    (pyMinBy f l).isSome := by
  cases l with
  | nil => exact absurd rfl h
  | cons x xs =>
    have hrw : pyMinBy f (x :: xs) = xs.foldl (pyMinStep f) (some x) := by
      simp [pyMinBy, List.foldl_cons, pyMinStep]
    rw [hrw]
    obtain ⟨m, hm, -, -, -⟩ := pyMinBy_go f xs x
    rw [hm]
    rfl

lemma label_to_dropdown_mem {l : String} {v : String}
    (h : label_to_dropdown l = some v) :
    v ∈ ["Buyer Pays", "Seller Pays", "Split 50/50", "n/a"] := by
  simp only [label_to_dropdown] at h
  split at h
  · simp_all
  · split at h
    · simp_all
    · split at h
      · simp_all
      · split at h
        · simp_all
        · simp_all

lemma getD_na_mem (o : Option String)
    (h : ∀ v, o = some v → v ∈ (["Buyer Pays", "Seller Pays", "Split 50/50", "n/a"] : List String)) :
    o.getD "n/a" ∈ (["Buyer Pays", "Seller Pays", "Split 50/50", "n/a"] : List String) := by
  cases o with
  | none => simp
  | some v => exact h v rfl

lemma winnerValue_mem (best : Checkbox) (cands : List Checkbox) (chars : List Glyph) :
    winnerValue best cands chars ∈ ["Buyer Pays", "Seller Pays", "Split 50/50", "n/a"] := by
  simp only [winnerValue]
  exact getD_na_mem _ (fun v hv => label_to_dropdown_mem hv)

lemma detect_mem (oy : ℚ) (all : List Checkbox) (br : Checkbox → ℚ) (chars : List Glyph) :
    detect_checked_box_at_y oy all br chars ∈
      ["Buyer Pays", "Seller Pays", "Split 50/50", "n/a"] := by
  unfold detect_checked_box_at_y
  cases h : pyMinBy br (detectCandidates oy all) with
  | none => simp [h]
  | some best =>
    simp only [h]
    split
    · simp
    · exact winnerValue_mem best (detectCandidates oy all) chars

/-- C7: the label resolver returns exactly the whitespace-stripped
concatenation of the first 15 glyphs, sorted by x, whose left edge is
at or beyond the checkbox's right edge minus 1 unit and strictly less
than the bound, and whose vertical midpoint is within 4 units of the
checkbox's vertical midpoint; consequently no glyph at or beyond the
bound (the next checkbox's left edge) contributes; on two adjacent
checkboxes labelled `Buyer Pays` and `Seller Pays` 40 units apart,
resolving the first does not leak into `Seller`. -/
theorem C7_label_resolver :
    (∀ (cb : Checkbox) (chars : List Glyph) (bound : ℚ) (c : Glyph),
      c ∈ labelGlyphs cb chars bound →
        c ∈ chars ∧ cb.x1 - 1 ≤ c.x0 ∧ c.x0 < bound ∧
          |(c.y0 + c.y1) / 2 - (cb.y0 + cb.y1) / 2| < 4) ∧
    (∀ (cb : Checkbox) (chars : List Glyph) (bound : ℚ),
      label_after_checkbox cb chars bound =
        String.mk (pyStrip (((labelGlyphs cb chars bound).take 15).map Glyph.text))) ∧
    label_after_checkbox cb1ex glBSex 60 = "Buyer Pays" := by
  refine ⟨?_, fun _ _ _ => rfl, ?_⟩
  · intro cb chars bound c hc
    have hc2 : c ∈ labelGlyphsUnsorted cb chars bound := by
      simpa [labelGlyphs, mem_sortByX] using hc
    simp only [labelGlyphsUnsorted, List.mem_filter, Bool.and_eq_true,
      decide_eq_true_eq] at hc2
    exact ⟨hc2.1, hc2.2.1.1, hc2.2.1.2, hc2.2.2⟩
  · norm_num [label_after_checkbox, labelGlyphs, labelGlyphsUnsorted, glBSex, cb1ex,
      abs_lt, List.filter, sortByX, insertByX]
    decide

/-- Witness for C7 at a concrete input: the `B` glyph of `Buyer Pays`
is selected for the first checkbox and satisfies the selection
conditions. -/
theorem C7_label_resolver_witness :
    ((⟨'B', 21, 0, 24, 10⟩ : Glyph) ∈ labelGlyphs cb1ex glBSex 60) ∧
    ((⟨'B', 21, 0, 24, 10⟩ : Glyph) ∈ glBSex ∧ cb1ex.x1 - 1 ≤ (21 : ℚ) ∧ (21 : ℚ) < 60 ∧
      |((0 : ℚ) + 10) / 2 - (cb1ex.y0 + cb1ex.y1) / 2| < 4) :=
  ⟨by norm_num [labelGlyphs, labelGlyphsUnsorted, glBSex, cb1ex, abs_lt, List.filter,
      sortByX, insertByX],
   C7_label_resolver.1 cb1ex glBSex 60 ⟨'B', 21, 0, 24, 10⟩
     (by norm_num [labelGlyphs, labelGlyphsUnsorted, glBSex, cb1ex, abs_lt, List.filter,
       sortByX, insertByX])⟩

/-- C8 counterexample: the label `PAYS ONE-HALF` starts with none of
the listed prefixes (`BUYER`, `SELLER`, `ONE`, hence also not
`ONE-HALF`, `N/A`) yet maps to `Split 50/50`, not `n/a`: the `ONE-HALF`
alternative is a substring test in the source, not a prefix test. -/
theorem C8_cex :
    label_to_dropdown "PAYS ONE-HALF" = some "Split 50/50" ∧
    ¬("BUYER".toList.isPrefixOf (upperLstrip "PAYS ONE-HALF") ∨
      "SELLER".toList.isPrefixOf (upperLstrip "PAYS ONE-HALF") ∨
      "ONE".toList.isPrefixOf (upperLstrip "PAYS ONE-HALF") ∨
      "N/A".toList.isPrefixOf (upperLstrip "PAYS ONE-HALF")) := by
  decide

/-- C8 (amended): the label mapping is case-insensitive via uppercasing
with left-stripping; `BUYER`/`SELLER`/`ONE`/`N/A` are prefix tests,
while `ONE-HALF` matches anywhere in the label; an unrecognized label
maps to `None`, which the classifier turns into `n/a`, so the
classifier's result is always one of the four enumeration values. -/
theorem C8_label_mapping :
    (∀ label : String,
      label_to_dropdown label =
        (if "BUYER".toList.isPrefixOf (upperLstrip label) then some "Buyer Pays"
         else if "SELLER".toList.isPrefixOf (upperLstrip label) then some "Seller Pays"
         else if containsSub (upperLstrip label) "ONE-HALF".toList ||
             "ONE".toList.isPrefixOf (upperLstrip label) then some "Split 50/50"
         else if "N/A".toList.isPrefixOf (upperLstrip label) then some "n/a"
         else none)) ∧
    (∀ (oy : ℚ) (all : List Checkbox) (br : Checkbox → ℚ) (chars : List Glyph),
      detect_checked_box_at_y oy all br chars ∈
        ["Buyer Pays", "Seller Pays", "Split 50/50", "n/a"]) :=
  ⟨fun _ => rfl, detect_mem⟩

/-- C10: `checkbox_brightness` is total, and its division is guarded:
an empty crop yields brightness 255, which exceeds the 150 threshold,
so an empty crop can never be classified as a checked box. -/
theorem C10_brightness_guard (ph : ℚ) (cb : Checkbox) (sx sy : ℚ)
    (gp : ℤ → ℤ → ℤ → ℤ → List ℕ)
    (h : gp (pyInt (cb.x0 * sx)) (pyInt ((ph - cb.y1) * sy))
        (max 1 (pyInt ((cb.x1 - cb.x0) * sx))) (max 1 (pyInt ((cb.y1 - cb.y0) * sy))) = []) :
    checkbox_brightness ph cb sx sy gp = 255 ∧ (150 : ℚ) < 255 := by
  refine ⟨?_, by norm_num⟩
  simp [checkbox_brightness, h]

/-- Witness for C10 at a concrete input: a crop function that returns
no pixels gives brightness 255. -/
theorem C10_brightness_guard_witness :
    checkbox_brightness 100 ⟨0, 0, 10, 10⟩ 2 2 gpEmpty = 255 ∧ (150 : ℚ) < 255 :=
  C10_brightness_guard 100 ⟨0, 0, 10, 10⟩ 2 2 gpEmpty rfl

lemma find?_range'_first (p : Nat → Bool) :
    ∀ (n s i : Nat), (List.range' s n).find? p = some i →
      p i = true ∧ s ≤ i ∧ i < s + n ∧ ∀ j, s ≤ j → j < i → p j = false := by
  intro n
  induction n with
  | zero => intro s i h; simp [List.range'] at h
  | succ n ih =>
    intro s i h
    rw [List.range'_succ] at h
    cases hps : p s with
    | true =>
      rw [List.find?_cons_of_pos _ hps] at h
      injection h with h
      subst h
      exact ⟨hps, le_refl _, by omega, fun j h1 h2 => absurd h1 (by omega)⟩
    | false =>
      rw [List.find?_cons_of_neg _ (by simp [hps])] at h
      obtain ⟨h1, h2, h3, h4⟩ := ih (s + 1) i h
      refine ⟨h1, by omega, by omega, ?_⟩
      intro j hj1 hj2
      rcases Nat.eq_or_lt_of_le hj1 with rfl | hlt
      · exact hps
      · exact h4 j hlt hj2

lemma find?_range_first {p : Nat → Bool} {n i : Nat}
    (h : (List.range n).find? p = some i) :
    p i = true ∧ i < n ∧ ∀ j, j < i → p j = false := by
  rw [List.range_eq_range'] at h
  obtain ⟨h1, -, h3, h4⟩ := find?_range'_first p n 0 i h
  exact ⟨h1, by omega, fun j hj => h4 j (Nat.zero_le j) hj⟩

/-- C2 counterexample: a single digit glyph sitting exactly at
`x0 = 150` — not strictly left of the 150-unit threshold — is still
accepted as a section-header candidate, because the source skips only
glyphs with `x0 > 150`. -/
theorem C2_cex :
    find_section_anchor_y "1" [(⟨'1', 150, 5, 160, 15⟩ : Glyph)] = some 5 ∧
    ¬((150 : ℚ) < 150) := by
  constructor
  · decide
  · norm_num

/-- C2 (amended): the section anchor locator returns the y-coordinate
of the first accepted candidate (none if no candidate is accepted),
where a candidate glyph must be a decimal digit at `x0 ≤ 150` (at or
left of the 150-unit margin), the next up-to-10 glyphs with spaces and
periods stripped must start with the first `min(4, length)` characters
of the normalized target id, and no `§` may occur among the 4
preceding glyphs; in particular a `§`-preceded occurrence is never the
match: on a page with both a `§ 16.2.` cross-reference and a true
`16.2 …` header, only the header anchors. -/
theorem C2_anchor_locator :
    (∀ (sid : String) (chars : List Glyph),
      (∀ y, find_section_anchor_y sid chars = some y →
        ∃ i, i < chars.length ∧ anchorAccept (normTarget sid) chars i = true ∧
          (∀ j, j < i → anchorAccept (normTarget sid) chars j = false) ∧
          chars[i]?.map Glyph.y0 = some y) ∧
      (find_section_anchor_y sid chars = none →
        ∀ i, i < chars.length → anchorAccept (normTarget sid) chars i = false) ∧
      (∀ i c, chars[i]? = some c → anchorAccept (normTarget sid) chars i = true →
        c.text.isDigit = true ∧ c.x0 ≤ 150 ∧
        ((normTarget sid).take 4).isPrefixOf (fragAt chars i) = true ∧
        ∀ g ∈ prevAt chars i, g.text ≠ '§')) ∧
    find_section_anchor_y "16.2." g16ex = some 400 := by
  refine ⟨?_, by decide⟩
  intro sid chars
  refine ⟨?_, ?_, ?_⟩
  · intro y hy
    unfold find_section_anchor_y at hy
    cases hf : (List.range chars.length).find? (anchorAccept (normTarget sid) chars) with
    | none => rw [hf] at hy; simp at hy
    | some i =>
      rw [hf] at hy
      obtain ⟨h1, h2, h3⟩ := find?_range_first hf
      exact ⟨i, h2, h1, h3, hy⟩
  · intro hn i hi
    unfold find_section_anchor_y at hn
    cases hf : (List.range chars.length).find? (anchorAccept (normTarget sid) chars) with
    | none =>
      have := List.find?_eq_none.mp hf i (List.mem_range.mpr hi)
      exact Bool.not_eq_true _ ▸ this
    | some j =>
      rw [hf] at hn
      obtain ⟨-, hj, -⟩ := find?_range_first hf
      have hgj : chars[j]? = some chars[j] := List.getElem?_eq_getElem hj
      simp [hgj] at hn
  · intro i c hci hacc
    unfold anchorAccept at hacc
    rw [hci] at hacc
    simp only [Bool.and_eq_true, Bool.not_eq_true', decide_eq_true_eq] at hacc
    refine ⟨hacc.1.1.1, hacc.1.1.2, hacc.1.2, ?_⟩
    intro g hg
    have := hacc.2
    rw [List.any_eq_false] at this
    have hgf := this g hg
    simpa using hgf

/-- Witness for C2 at a concrete input: on the cross-reference page the
anchor resolves to y = 400 and some accepted first index exists. -/
theorem C2_anchor_locator_witness :
    find_section_anchor_y "16.2." g16ex = some 400 ∧
    ∃ i, i < g16ex.length ∧ anchorAccept (normTarget "16.2.") g16ex i = true ∧
      (∀ j, j < i → anchorAccept (normTarget "16.2.") g16ex j = false) ∧
      g16ex[i]?.map Glyph.y0 = some 400 :=
  ⟨by decide, (C2_anchor_locator.1 "16.2." g16ex).1 400 (by decide)⟩

/-- C1: the candidates of `detect_checked_box_at_y` are exactly the
page checkboxes within 8 units of the options-line y plus those within
6 units of the line 14 units above; with no candidate the result is
`"n/a"`; otherwise a darkest candidate is selected (the first with
minimal mean brightness), and the result is `"n/a"` when its
brightness exceeds 150 and the dropdown value of its label otherwise —
so a checkbox whose brightness exceeds 150 never yields the result. -/
theorem C1_threshold_darkest (oy : ℚ) (all : List Checkbox) (br : Checkbox → ℚ)
    (chars : List Glyph) :
    (∀ cb, cb ∈ detectCandidates oy all ↔
      cb ∈ all ∧ (|cb.y0 - oy| < 8 ∨ |cb.y0 - (oy + 14)| < 6)) ∧
    (detectCandidates oy all = [] → detect_checked_box_at_y oy all br chars = "n/a") ∧
    (detectCandidates oy all ≠ [] → (pyMinBy br (detectCandidates oy all)).isSome) ∧
    (∀ best, pyMinBy br (detectCandidates oy all) = some best →
      best ∈ detectCandidates oy all ∧
      (∀ cb ∈ detectCandidates oy all, br best ≤ br cb) ∧
      detect_checked_box_at_y oy all br chars =
        if br best > 150 then "n/a" else winnerValue best (detectCandidates oy all) chars) := by
  refine ⟨?_, ?_, ?_, ?_⟩
  · intro cb
    simp only [detectCandidates, List.mem_append, List.mem_filter, Bool.and_eq_true,
      decide_eq_true_eq, Bool.not_eq_true', decide_eq_false_iff_not]
    constructor
    · rintro (⟨h1, h2⟩ | ⟨h1, h2, -⟩)
      · exact ⟨h1, Or.inl h2⟩
      · exact ⟨h1, Or.inr h2⟩
    · rintro ⟨h1, h2 | h2⟩
      · exact Or.inl ⟨h1, h2⟩
      · by_cases h8 : |cb.y0 - oy| < 8
        · exact Or.inl ⟨h1, h8⟩
        · exact Or.inr ⟨h1, h2, fun hc => h8 hc.2⟩
  · intro h
    simp [detect_checked_box_at_y, h, pyMinBy]
  · exact fun h => pyMinBy_isSome h
  · intro best hb
    obtain ⟨hmem, hall⟩ := pyMinBy_eq_some hb
    refine ⟨hmem, hall, ?_⟩
    simp only [detect_checked_box_at_y]
    rw [hb]

/-- Witness for C1 at a concrete input: one dark checkbox (brightness
100) on the options line with the label `Buyer`; the minimum is that
checkbox and the classifier returns `Buyer Pays`. -/
theorem C1_threshold_darkest_witness :
    pyMinBy brEx (detectCandidates 0 [cbBex]) = some cbBex ∧
    detect_checked_box_at_y 0 [cbBex] brEx glBex = "Buyer Pays" := by
  have hmin : pyMinBy brEx (detectCandidates 0 [cbBex]) = some cbBex := by
    norm_num [pyMinBy, pyMinStep, detectCandidates, List.filter, abs_lt, brEx, cbBex]
  refine ⟨hmin, ?_⟩
  have h := (C1_threshold_darkest 0 [cbBex] brEx glBex).2.2.2 cbBex hmin
  rw [h.2.2, if_neg (by norm_num [brEx])]
  norm_num [winnerValue, detectCandidates, List.filter, abs_lt, pyMinD,
    label_after_checkbox, labelGlyphs, labelGlyphsUnsorted, glBex, cbBex, sortByX, insertByX]
  decide

lemma pyDictSet_mem {d : List (Nat × String)} {k : Nat} {v : String} {p : Nat × String}
    (h : p ∈ pyDictSet d k v) : p ∈ d ∨ p = (k, v) := by
  unfold pyDictSet at h
  split at h
  · obtain ⟨q, hq, hpq⟩ := List.mem_map.mp h
    by_cases hk : q.1 == k
    · right
      rw [if_pos hk] at hpq
      exact hpq.symm
    · left
      rw [if_neg hk] at hpq
      exact hpq ▸ hq
  · rcases List.mem_append.mp h with h2 | h2
    · exact Or.inl h2
    · right
      simpa using h2

lemma parse_deadline_line_le {line : List Char} {item : Nat} {v : String}
    (h : parse_deadline_line line = some (item, v)) : item ≤ 43 := by
  unfold parse_deadline_line at h
  split at h
  · exact absurd h (by simp)
  · split at h
    · exact absurd h (by simp)
    · rename_i h43
      injection h with h
      have h1 := congrArg Prod.fst h
      simp at h1
      omega

lemma deadlinesFold_le :
    ∀ (ls : List (List Char)) (acc : List (Nat × String)),
      (∀ q ∈ acc, q.1 ≤ 43) →
      ∀ q ∈ ls.foldl (fun acc line =>
          match parse_deadline_line (pyStrip line) with
          | some (item, v) => pyDictSet acc item v
          | none => acc) acc, q.1 ≤ 43 := by
  intro ls
  induction ls with
  | nil => intro acc hacc q hq; exact hacc q hq
  | cons l t ih =>
    intro acc hacc q hq
    rw [List.foldl_cons] at hq
    refine ih _ ?_ q hq
    cases hp : parse_deadline_line (pyStrip l) with
    | none => simpa [hp] using hacc
    | some iv =>
      obtain ⟨i, v⟩ := iv
      intro r hr
      simp only [hp] at hr
      rcases pyDictSet_mem hr with h2 | h2
      · exact hacc r h2
      · rw [h2]
        exact parse_deadline_line_le hp

lemma parse_deadlines_mem_le {text : String} {p : Nat × String}
    (h : p ∈ parse_deadlines text) : p.1 ≤ 43 := by
  simp only [parse_deadlines] at h
  cases hf : findSub text.toList deadlineHeaderLit with
  | none => rw [hf] at h; simp at h
  | some start =>
    rw [hf] at h
    exact deadlinesFold_le _ [] (by simp) p h

/-- C4 counterexample: the deadline table accepts an item number of 0
(the leading-integer pattern admits any decimal number and only item
numbers above 43 are rejected), so `parse_deadlines` can return the key
0, which lies outside the range 1..43. -/
theorem C4_cex :
    parse_deadlines "Item No. Reference Event Date or Deadline\n0 n/a x" = [(0, "x")] ∧
    ¬(1 ≤ (0 : Nat)) := by
  constructor
  · decide
  · omega

/-- C4 (amended): the deadline table parser never emits an item number
above 43: every line whose leading integer item number exceeds 43 is
rejected, and for all inputs every key of the mapping returned by
`parse_deadlines` lies in the range 0..43 (0 is accepted by the code,
so the lower bound is 0, not 1). -/
theorem C4_item_range :
    (∀ (line : List Char) (item : Nat) (v : String),
      parse_deadline_line line = some (item, v) → item ≤ 43) ∧
    (∀ (line : List Char) (item : Nat) (rest : List Char),
      deadlineHead line = some (item, rest) → 43 < item →
        parse_deadline_line line = none) ∧
    (∀ (text : String) (p : Nat × String), p ∈ parse_deadlines text → p.1 ≤ 43) := by
  refine ⟨?_, ?_, ?_⟩
  · exact fun _ _ _ h => parse_deadline_line_le h
  · intro line item rest hh h43
    unfold parse_deadline_line
    rw [hh]
    simp [h43]
  · exact fun _ p h => parse_deadlines_mem_le h

/-- Witness for C4 at a concrete input: the example table emits item 5,
which is at most 43. -/
theorem C4_item_range_witness :
    ((5, "March 3, 2025") ∈ parse_deadlines tDeadlineEx) ∧ (5, "March 3, 2025").1 ≤ 43 :=
  ⟨by decide, C4_item_range.2.2 tDeadlineEx (5, "March 3, 2025") (by decide)⟩

/-- C6 counterexample: on a row without any of the keywords
`Deadline`/`Date`/`Time`, the source takes the whole remainder but does
not strip a leading parenthetical qualifier (that strip happens only in
the keyword branch), so the value keeps the parenthetical, while the
claim's description would strip it to `x`. -/
theorem C6_cex :
    parse_deadline_line "7 n/a (note) x".toList = some (7, "(note) x") ∧
    String.mk (pyStrip (stripLeadingParen "(note) x".toList)) = "x" ∧
    ("(note) x" : String) ≠ "x" := by
  refine ⟨by decide, by decide, by decide⟩

/-- C6 (amended): for every deadline-table line with an accepted item
number, the value is the text after the last occurrence of any of the
keywords `Deadline`, `Date`, `Time` with a leading parenthetical
qualifier stripped, or the whole remainder (without parenthetical
stripping) when no keyword occurs; in both cases a trailing day-of-week
name is stripped and empty or `N/A` normalizes to `n/a`; in particular
the row `5 § 4.5. Loan Application Deadline March 3, 2025 Monday`
yields item 5 with value `March 3, 2025`. -/
theorem C6_deadline_value :
    (∀ line : List Char,
      parse_deadline_line line =
        (deadlineHead line).bind (fun p =>
          if 43 < p.1 then none else some (p.1, String.mk (deadlineValue p.2)))) ∧
    parse_deadline_line "5 § 4.5. Loan Application Deadline March 3, 2025 Monday".toList =
      some (5, "March 3, 2025") := by
  constructor
  · intro line
    unfold parse_deadline_line
    cases h : deadlineHead line with
    | none => rfl
    | some p => rfl
  · decide

lemma takeWhile_dot (ip fp : List Char) (hip : ∀ c ∈ ip, (c != '.') = true) :
    (ip ++ '.' :: fp).takeWhile (fun c => c != '.') = ip ∧
    (ip ++ '.' :: fp).dropWhile (fun c => c != '.') = '.' :: fp := by
  induction ip with
  | nil => simp [List.takeWhile, List.dropWhile]
  | cons c t ih =>
    have hc : (c != '.') = true := hip c (List.mem_cons_self _ _)
    have ht := ih (fun d hd => hip d (List.mem_cons_of_mem _ hd))
    simp [List.takeWhile_cons, List.dropWhile_cons, hc, ht.1, ht.2]

lemma moneyToRat_eval (cap ipart fpart : List Char) (a b k : ℕ)
    (hfil : cap.filter (fun c => c != ',') = ipart ++ '.' :: fpart)
    (hip : ∀ c ∈ ipart, (c != '.') = true)
    (ha : digitsToNat ipart = a) (hb : digitsToNat fpart = b)
    (hk : fpart.length = k) :
    moneyToRat cap = a + b / 10 ^ k := by
  simp only [moneyToRat, hfil, (takeWhile_dot ipart fpart hip).1,
    (takeWhile_dot ipart fpart hip).2]
  simp [ha, hb, hk]

set_option maxRecDepth 20000 in
/-- C9 counterexample: on purchase-price text whose amount has no
thousands separators (`$4500000.00`), the source's pattern
`[\d,]+\.\d{2}` extracts 4500000.00, while the pattern the claim
states, `\d{1,3}(,\d{3})*\.\d{2}`, matches nothing in the window, so an
extractor built from the claim's pattern returns an absent result: the
two patterns are not the same extractor. -/
theorem C9_cex :
    parse_price "4.1.x§ 4.1. Purchase Price is $4500000.00" = some 4500000 ∧
    parse_price_specPattern "4.1.x§ 4.1. Purchase Price is $4500000.00" = none := by
  constructor
  · simp only [parse_price,
      show findSub "4.1.x§ 4.1. Purchase Price is $4500000.00".toList "4.1.".toList = some 0
        from by decide,
      show searchMoney "4.1.".toList "Purchase Price".toList
        (("4.1.x§ 4.1. Purchase Price is $4500000.00".toList.drop 0).take 600) =
        some "4500000.00".toList from by decide,
      Option.map_some']
    rw [moneyToRat_eval "4500000.00".toList "4500000".toList "00".toList 4500000 0 2
      (by decide) (by decide) (by decide) (by decide) (by decide)]
    norm_num
  · decide

/-- C9 (amended): the purchase-price, earnest-money and loan-amount
extractors match the numeric pattern `[\d,]+\.\d{2}` (one or more
digits or commas, a period, exactly two digits) after the section's
fixed label text within the 600-character window after the first
occurrence of the `4.1.` anchor, returning the parsed decimal value or
an absent result (`None`; 0 for the loan amount when the anchor is
present) when the pattern does not match; in particular
`…Purchase Price is $450,000.00…` near section `4.1.` yields price
450000.00, and an unseparated `$4500000.00` yields 4500000.00. -/
theorem C9_money_extractors :
    parse_price "4.1. Contract. § 4.1. Purchase Price is $450,000.00 paid" = some 450000 ∧
    parse_price "4.1.x§ 4.1. Purchase Price is $4500000.00" = some 4500000 ∧
    parse_earnest "4.1. x § 4.3. Earnest Money $5,000.00 z" = some 5000 ∧
    parse_new_loan "4.1. x § 4.5. New Loan of $360,000.00" = some 360000 ∧
    parse_new_loan "4.1. x no loan" = some 0 ∧
    parse_price "no anchor" = none ∧
    parse_price "4.1. nothing matching here" = none := by
  refine ⟨?_, ?_, ?_, ?_, by decide, by decide, by decide⟩
  · simp only [parse_price,
      show findSub "4.1. Contract. § 4.1. Purchase Price is $450,000.00 paid".toList
        "4.1.".toList = some 0 from by decide,
      show searchMoney "4.1.".toList "Purchase Price".toList
        (("4.1. Contract. § 4.1. Purchase Price is $450,000.00 paid".toList.drop 0).take 600) =
        some "450,000.00".toList from by decide,
      Option.map_some']
    rw [moneyToRat_eval "450,000.00".toList "450000".toList "00".toList 450000 0 2
      (by decide) (by decide) (by decide) (by decide) (by decide)]
    norm_num
  · simp only [parse_price,
      show findSub "4.1.x§ 4.1. Purchase Price is $4500000.00".toList "4.1.".toList = some 0
        from by decide,
      show searchMoney "4.1.".toList "Purchase Price".toList
        (("4.1.x§ 4.1. Purchase Price is $4500000.00".toList.drop 0).take 600) =
        some "4500000.00".toList from by decide,
      Option.map_some']
    rw [moneyToRat_eval "4500000.00".toList "4500000".toList "00".toList 4500000 0 2
      (by decide) (by decide) (by decide) (by decide) (by decide)]
    norm_num
  · simp only [parse_earnest,
      show findSub "4.1. x § 4.3. Earnest Money $5,000.00 z".toList "4.1.".toList = some 0
        from by decide,
      show searchMoney "4.3.".toList "Earnest Money".toList
        (("4.1. x § 4.3. Earnest Money $5,000.00 z".toList.drop 0).take 600) =
        some "5,000.00".toList from by decide,
      Option.map_some']
    rw [moneyToRat_eval "5,000.00".toList "5000".toList "00".toList 5000 0 2
      (by decide) (by decide) (by decide) (by decide) (by decide)]
    norm_num
  · simp only [parse_new_loan,
      show findSub "4.1. x § 4.5. New Loan of $360,000.00".toList "4.1.".toList = some 0
        from by decide,
      show searchMoney "4.5.".toList "New Loan".toList
        (("4.1. x § 4.5. New Loan of $360,000.00".toList.drop 0).take 600) =
        some "360,000.00".toList from by decide]
    rw [moneyToRat_eval "360,000.00".toList "360000".toList "00".toList 360000 0 2
      (by decide) (by decide) (by decide) (by decide) (by decide)]
    norm_num

set_option maxRecDepth 20000 in
lemma pcd_loan_rows (text : String) (inp : PdfInputs) :
    parse_contract_data text inp 15 =
      some (.str (parse_loan_type text (parse_new_loan text))) ∧
    parse_contract_data text inp 16 =
      some (if parse_loan_type text (parse_new_loan text) == "Cash"
            then FieldValue.str "n/a" else FieldValue.pyNone) ∧
    parse_contract_data text inp 17 =
      some (if parse_loan_type text (parse_new_loan text) == "Cash"
            then FieldValue.str "n/a" else FieldValue.pyNone) := by
  cases hco : inp.commission with
  | none =>
    refine ⟨?_, ?_, ?_⟩ <;> simp [parse_contract_data, dset, DEADLINE_ITEM_TO_ROW, hco]
  | some c =>
    refine ⟨?_, ?_, ?_⟩ <;> simp [parse_contract_data, dset, DEADLINE_ITEM_TO_ROW, hco]

/-- C3: if the loan section is marked omitted or the extracted loan
amount is absent or zero (Python-falsy), the assembled record has loan
type `Cash` and lender and lender-letter set to `"n/a"` (not left
unset); otherwise the loan type is `FHA` when an FHA-insurance phrase
is present, `VA` when a VA-guarantee phrase is present, and
`Conventional` by default. -/
theorem C3_cash_invariant (text : String) (inp : PdfInputs) :
    ((containsSubS text "4.5. New Loan. (Omitted" = true ∨
      loanFalsy (parse_new_loan text) = true) →
      parse_contract_data text inp 15 = some (.str "Cash") ∧
      parse_contract_data text inp 16 = some (.str "n/a") ∧
      parse_contract_data text inp 17 = some (.str "n/a")) ∧
    (containsSubS text "4.5. New Loan. (Omitted" = false →
      loanFalsy (parse_new_loan text) = false →
      parse_contract_data text inp 15 = some (.str (
        if containsSubS text "FHA Insured" || containsSubS text "FHA insured" then "FHA"
        else if containsSubS text "VA Guaranteed" || containsSubS text "VA guaranteed" then "VA"
        else "Conventional"))) := by
  have hlt := pcd_loan_rows text inp
  constructor
  · intro h
    have hcash : parse_loan_type text (parse_new_loan text) = "Cash" := by
      unfold parse_loan_type
      rcases h with h | h
      · rw [if_pos h]
      · by_cases ho : containsSubS text "4.5. New Loan. (Omitted"
        · rw [if_pos ho]
        · rw [if_neg ho, if_pos h]
    rw [hlt.1, hlt.2.1, hlt.2.2, hcash]
    exact ⟨rfl, by norm_num, by norm_num⟩
  · intro h1 h2
    have hlt2 : parse_loan_type text (parse_new_loan text) =
        (if containsSubS text "FHA Insured" || containsSubS text "FHA insured" then "FHA"
         else if containsSubS text "VA Guaranteed" || containsSubS text "VA guaranteed" then "VA"
         else "Conventional") := by
      unfold parse_loan_type
      rw [if_neg (by simp [h1]), if_neg (by simp [h2])]
    rw [hlt.1, hlt2]

/-- Witness for C3 at a concrete input: text whose loan section is
marked omitted yields loan type `Cash` and `"n/a"` lender fields. -/
theorem C3_cash_invariant_witness :
    parse_contract_data "x 4.5. New Loan. (Omitted y" inpNoCommission 15 =
      some (FieldValue.str "Cash") ∧
    parse_contract_data "x 4.5. New Loan. (Omitted y" inpNoCommission 16 =
      some (FieldValue.str "n/a") ∧
    parse_contract_data "x 4.5. New Loan. (Omitted y" inpNoCommission 17 =
      some (FieldValue.str "n/a") :=
  (C3_cash_invariant "x 4.5. New Loan. (Omitted y" inpNoCommission).1 (Or.inl (by decide))

set_option maxRecDepth 40000 in
/-- C5 counterexample: with no extracted commission value the assembled
record omits the commission identifier (row 43) entirely — row 43 is
a scalar identifier and is not on the never-auto-fill exclusion list,
so the record does not contain every scalar identifier. -/
theorem C5_cex :
    parse_contract_data "" inpNoCommission 43 = none ∧ (43 : Nat) ∉ SKIP_ROWS := by
  exact ⟨by decide, by decide⟩

set_option maxRecDepth 20000 in
/-- C5 (amended): for every document the assembled record contains
every one of the 35 deadline identifiers (rows 49–83, one per item of
the fixed 35-item mapping) with the table value or the absence marker
`"n/a"`, so no deadline identifier can stem from an item outside the
mapping (items 16–21 and 28–29 are dropped even if present); it never
contains an identifier of the never-auto-fill exclusion set; it
contains every unconditionally-set scalar identifier; and it contains
the commission identifier (row 43) exactly when a commission value was
extracted. -/
theorem C5_record_invariant (text : String) (inp : PdfInputs) :
    (∀ p ∈ DEADLINE_ITEM_TO_ROW,
      parse_contract_data text inp p.2 =
        some (.str (pyDictGet (parse_deadlines text) p.1 "n/a"))) ∧
    (∀ r ∈ SKIP_ROWS, parse_contract_data text inp r = none) ∧
    (∀ r ∈ scalarRows, (parse_contract_data text inp r).isSome = true) ∧
    ((parse_contract_data text inp 43).isSome = true ↔ inp.commission.isSome = true) := by
  refine ⟨?_, ?_, ?_, ?_⟩
  · intro p hp
    fin_cases hp <;> cases hco : inp.commission <;>
      simp [parse_contract_data, dset, DEADLINE_ITEM_TO_ROW, hco]
  · intro r hr
    fin_cases hr <;> cases hco : inp.commission <;>
      simp [parse_contract_data, dset, DEADLINE_ITEM_TO_ROW, hco]
  · intro r hr
    fin_cases hr <;> cases hco : inp.commission <;>
      simp [parse_contract_data, dset, DEADLINE_ITEM_TO_ROW, hco]
  · cases hco : inp.commission <;>
      simp [parse_contract_data, dset, DEADLINE_ITEM_TO_ROW, hco]

/-- Witness for C5 at a concrete input: the record of the empty
document contains deadline row 53 (item 5) with the absence marker. -/
theorem C5_record_invariant_witness :
    ((5, 53) ∈ DEADLINE_ITEM_TO_ROW) ∧
    parse_contract_data "" inpNoCommission 53 =
      some (.str (pyDictGet (parse_deadlines "") 5 "n/a")) :=
  ⟨by decide, (C5_record_invariant "" inpNoCommission).1 (5, 53) (by decide)⟩
